import Mathlib

/-!
Shallow embedding of
`src/workspaces/tech-insights/packages/backend/src/plugins/tech-insights.ts`.

The module defines a list `checks` of declarative rule checks, and a fact
retriever `apiDefinitionFactRetriever` whose handler lists API entities from
the catalog and computes two facts per entity (`hasDefinition`, `hasReadme`).
External collaborators (the auth service, the catalog client, the location-ref
parser from the catalog model, the URL reader) are modelled as explicit
function parameters returning `Except`, since in the source they are async
calls that may throw.  Promises are modelled by `Except` values (a resolved
promise is `.ok`, a rejected one `.error`); the sequential `await` chain in
the handler becomes `Except` bind.

JavaScript strings are modelled as Lean `String` (a sequence of characters);
all string operations used by the source are defined below from that
representation.
-/

namespace TechInsights

/-- A JavaScript value, as far as the expression
`spec?.definition && spec?.definition.length > 0` can produce one:
`undefined`, a string, or a boolean. -/
inductive JsVal where
  | undef : JsVal
  | str : String → JsVal
  | bool : Bool → JsVal
deriving DecidableEq, Repr

/-- Result of `parseLocationRef` (external, from `@backstage/catalog-model`):
a location reference split into a type and a target. -/
structure LocationRef where
  type : String
  target : String
deriving DecidableEq, Repr

/-- Response of `reader.search` (external `UrlReaderService`): a list of
matched files.  Only the cardinality of `files` is inspected by the source. -/
structure SearchResponse where
  files : List String
deriving DecidableEq, Repr

/-- JavaScript `s.endsWith(post)`: the characters of `post` are a suffix of
the characters of `s`. -/
def jsEndsWith (s post : String) : Bool :=
  post.data.isSuffixOf s.data

/-- Remove a suffix of the length of `post` from `s` (used only when
`jsEndsWith s post` holds, to model replacing a `$`-anchored regex match). -/
def stripEnd (s post : String) : String :=
  String.mk (s.data.take (s.data.length - post.data.length))

/-- JavaScript `str.replace(re, repl)` for a `$`-anchored regular expression
whose language is a finite set of literal alternatives `alts`: if some
alternative is a suffix of `str`, that suffix is the match and is replaced by
`repl`; otherwise `str` is returned unchanged.  (For each of the four source
regexes the alternatives are pairwise exclusive as suffixes — no string ends
with two of them — so the regex has at most one match and the order of
`alts` is irrelevant.) -/
def replaceEndRegex (alts : List String) (repl : String) (str : String) : String :=
  match alts.find? (fun alt => jsEndsWith str alt) with
  | some alt => stripEnd str alt ++ repl
  | none => str

/-- The four regexes of `COMPONENT_LOCATIONS_REGEX` in `checkReadmeFile`,
each given by the finite list of literal suffix alternatives it matches:
1. `/\/catalog-info\.yaml$/`
2. `/\%2Fcatalog-info\.yaml$/`  (in a JS regex `\%` is the literal `%`)
3. `/\/\.devhub\/(?:dev\/|int\/|prod\/)?components\.yaml$/`
   (the environment group is optional)
4. `/\%2F\.devhub\%2F(?:dev\%2F|int\%2F|prod\%2F)?components\.yaml$/`
Below, `regexCatalogInfo` is the alternatives of the first regex, and so on. -/
def regexCatalogInfo : List String := ["/catalog-info.yaml"]

/-- Alternatives of the second regex. -/
def regexCatalogInfoEnc : List String := ["%2Fcatalog-info.yaml"]

/-- Alternatives of the third regex (the environment group is optional, hence
the fourth alternative with no environment directory). -/
def regexDevhub : List String :=
  [ "/.devhub/dev/components.yaml",
    "/.devhub/int/components.yaml",
    "/.devhub/prod/components.yaml",
    "/.devhub/components.yaml" ]

/-- Alternatives of the fourth regex. -/
def regexDevhubEnc : List String :=
  [ "%2F.devhub%2Fdev%2Fcomponents.yaml",
    "%2F.devhub%2Fint%2Fcomponents.yaml",
    "%2F.devhub%2Fprod%2Fcomponents.yaml",
    "%2F.devhub%2Fcomponents.yaml" ]

/-- The source's array of the four regexes, in source order. -/
def COMPONENT_LOCATIONS_REGEX : List (List String) :=
  [regexCatalogInfo, regexCatalogInfoEnc, regexDevhub, regexDevhubEnc]

/-- The `reduce` in `checkReadmeFile`:
`COMPONENT_LOCATIONS_REGEX.reduce((str, re) => str.replace(re, '/README.md'),
sourceLocationRef.target)`. -/
def rewriteReadmeUrl (target : String) : String :=
  COMPONENT_LOCATIONS_REGEX.foldl
    (fun str re => replaceEndRegex re "/README.md" str) target

/-- `checkReadmeFile(entity, logger, reader)`.

Inputs: the entity's source-location annotation
(`entity.metadata.annotations?.[ANNOTATION_SOURCE_LOCATION]`, an optional
string), the external `parseLocationRef` function and the external
`reader.search` operation, both of which may throw (modelled by `Except`).

Output: the returned boolean, paired with the list of URLs passed to
`reader.search` during the call (the trace of search invocations), so that
"no search call is made" is expressible.  The source:
* returns `false` if the annotation is falsy (absent or the empty string);
* inside `try`: parses the location ref, rewrites the target through the
  regex reduce, calls `reader.search(readmeUrl)` and returns
  `response.files.length === 1`;
* `catch`: logs and returns `false`.  Logging has no effect on the result. -/
def checkReadmeFile (sourceLocation : Option String)
    (parseLocationRef : String → Except String LocationRef)
    (search : String → Except String SearchResponse) : Bool × List String :=
  match sourceLocation with
  | none => (false, [])
  | some loc =>
    if loc = "" then (false, [])
    else
      match parseLocationRef loc with
      | Except.error _ => (false, [])
      | Except.ok sourceLocationRef =>
        let readmeUrl := rewriteReadmeUrl sourceLocationRef.target
        match search readmeUrl with
        | Except.error _ => (false, [readmeUrl])
        | Except.ok response => (response.files.length == 1, [readmeUrl])

/-- The `hasDefinition` fact:
`(entity as ApiEntityV1alpha1).spec?.definition &&
 (entity as ApiEntityV1alpha1).spec?.definition.length > 0`.
JavaScript `a && b` evaluates to `a` when `a` is falsy and to `b` otherwise;
`undefined` and the empty string are falsy.  So the value is `undefined` when
`spec?.definition` is absent, the empty string when it is present but empty,
and the boolean `true` (from `length > 0`) when it is non-empty. -/
def jsHasDefinition (definition : Option String) : JsVal :=
  match definition with
  | none => JsVal.undef
  | some s => if s = "" then JsVal.str s else JsVal.bool (decide (s.length > 0))

/-- The fields of a catalog entity that the handler reads:
`metadata.namespace`, `kind`, `metadata.name`, the API spec `definition`
(absent or a string) and the source-location annotation (absent or a
string). -/
structure Entity where
  nmspace : String
  kind : String
  name : String
  definition : Option String
  sourceLocation : Option String
deriving DecidableEq, Repr

/-- The entity reference put in each fact record:
`{ namespace, kind, name }`. -/
structure EntityRef where
  nmspace : String
  kind : String
  name : String
deriving DecidableEq, Repr

/-- The `facts` object of one record: `{ hasDefinition, hasReadme }`.
`hasDefinition` is the raw JS value of the `&&` expression; `hasReadme` is
the boolean returned by `checkReadmeFile`. -/
structure FactsMap where
  hasDefinition : JsVal
  hasReadme : Bool
deriving DecidableEq, Repr

/-- One fact record produced by the handler: `{ entity, facts }`. -/
structure TechInsightFact where
  entity : EntityRef
  facts : FactsMap
deriving DecidableEq, Repr

/-- The function mapped over `entities.items` in the handler: builds the fact
record of one entity. -/
def factFor (parseLocationRef : String → Except String LocationRef)
    (search : String → Except String SearchResponse)
    (entity : Entity) : TechInsightFact :=
  { entity := { nmspace := entity.nmspace, kind := entity.kind, name := entity.name },
    facts :=
      { hasDefinition := jsHasDefinition entity.definition,
        hasReadme := (checkReadmeFile entity.sourceLocation parseLocationRef search).1 } }

/-- `Promise.all(entities.items.map(...))`: the per-entity fan-out of the
handler.  Every promise in the map resolves (`jsHasDefinition` is pure and
`checkReadmeFile` catches its exceptions), so `Promise.all` resolves to the
list of records in input order. -/
def handlerFacts (entities : List Entity)
    (parseLocationRef : String → Except String LocationRef)
    (search : String → Except String SearchResponse) : List TechInsightFact :=
  entities.map (factFor parseLocationRef search)

/-- Credentials of the running service, as returned by
`auth.getOwnServiceCredentials()` (external; contents never inspected). -/
structure ServiceCredentials where
  principal : String
deriving DecidableEq, Repr

/-- The whole handler of `apiDefinitionFactRetriever`.  In source order:
1. `await auth.getOwnServiceCredentials()`,
2. `await auth.getPluginRequestToken({ onBehalfOf: …, targetPluginId:
   'catalog' })`, giving `{ token }`,
3. `await catalogClient.getEntities({ filter: { kind: ['API'] } }, { token })`,
4. `await Promise.all(entities.items.map(...))`.
None of steps 1–3 is inside a `try`, so a rejection there rejects the whole
handler (`Except.error`); otherwise the record list is returned. -/
def handler
    (getOwnServiceCredentials : Except String ServiceCredentials)
    (getPluginRequestToken : ServiceCredentials → Except String String)
    (getEntities : String → Except String (List Entity))
    (parseLocationRef : String → Except String LocationRef)
    (search : String → Except String SearchResponse) :
    Except String (List TechInsightFact) := do
  let credentials ← getOwnServiceCredentials
  let token ← getPluginRequestToken credentials
  let entities ← getEntities token
  pure (handlerFacts entities parseLocationRef search)

/-- `JSON_RULE_ENGINE_CHECK_TYPE`, imported from
`@backstage-community/plugin-tech-insights-backend-module-jsonfc` (external),
whose exported value is the string below.  Only used as the `type` field of
the checks. -/
def JSON_RULE_ENGINE_CHECK_TYPE : String := "json-rules-engine"

/-- One condition of a rule tree: `{ fact, operator, value }`. -/
structure RuleCondition where
  fact : String
  operator : String
  value : Bool
deriving DecidableEq, Repr

/-- `conditions` of a rule: the `all` conjunction over its conditions. -/
structure RuleConditions where
  all : List RuleCondition
deriving DecidableEq, Repr

/-- A rule tree: `{ conditions: { all: [...] } }`. -/
structure Rule where
  conditions : RuleConditions
deriving DecidableEq, Repr

/-- One check declaration of the exported `checks` array. -/
structure Check where
  id : String
  type : String
  name : String
  description : String
  factIds : List String
  rule : Rule
deriving DecidableEq, Repr

/-- The exported `checks` array: `groupOwnerCheck` and
`apiDefinitionCheck`, verbatim from the source. -/
def checks : List Check :=
  [ { id := "groupOwnerCheck",
      type := JSON_RULE_ENGINE_CHECK_TYPE,
      name := "Group Owner Check",
      description := "Verifies that a Group has been set as the owner for this entity",
      factIds := ["entityOwnershipFactRetriever"],
      rule := { conditions := { all :=
        [ { fact := "hasGroupOwner", operator := "equal", value := true } ] } } },
    { id := "apiDefinitionCheck",
      type := JSON_RULE_ENGINE_CHECK_TYPE,
      name := "API definition Check",
      description := "Verifies that a API has a definition set",
      factIds := ["apiDefinitionFactRetriever"],
      rule := { conditions := { all :=
        [ { fact := "hasDefinition", operator := "equal", value := true },
          { fact := "hasReadme", operator := "equal", value := true } ] } } } ]

/-- One entry of a fact retriever's `schema`: `{ type, description }`. -/
structure SchemaField where
  type : String
  description : String
deriving DecidableEq, Repr

/-- The static fields of a fact retriever declaration (its `handler`
behaviour is the `handler` function above). -/
structure FactRetrieverDescr where
  id : String
  version : String
  title : String
  description : String
  schema : List (String × SchemaField)
deriving DecidableEq, Repr

/-- The static part of the exported `apiDefinitionFactRetriever`, verbatim
from the source. -/
def apiDefinitionFactRetriever : FactRetrieverDescr :=
  { id := "apiDefinitionFactRetriever",
    version := "0.0.1",
    title := "API Definition",
    description := "Generates facts which indicate the completeness of API spec",
    schema :=
      [ ("hasDefinition",
         { type := "boolean",
           description := "The entity has a definition in spec" }),
        ("hasReadme",
         { type := "boolean",
           description := "The entity has a readme file" }) ] }

/-- An exported declaration of the module. -/
inductive ModuleExport where
  | checkList : List Check → ModuleExport
  | factRetriever : FactRetrieverDescr → ModuleExport
deriving DecidableEq, Repr

/-- The source file's `export const` declarations, in order: `checks` and
`apiDefinitionFactRetriever`.  These are the only exports. -/
def moduleExports : List ModuleExport :=
  [ModuleExport.checkList checks, ModuleExport.factRetriever apiDefinitionFactRetriever]

/-- Whether an export is a fact-retriever descriptor. -/
def isFactRetrieverExport : ModuleExport → Bool
  | ModuleExport.factRetriever _ => true
  | _ => false

/-- Whether an export is a list of check descriptors. -/
def isCheckListExport : ModuleExport → Bool
  | ModuleExport.checkList _ => true
  | _ => false

/-! ### Helper lemmas about the string operations -/

lemma jsEndsWith_append_self (p s : String) : jsEndsWith (p ++ s) s = true := by
  simp [jsEndsWith, String.data_append]

lemma jsEndsWith_append_eq_false (p S A : String)
    (h1 : A.data.isSuffixOf S.data = false)
    (h2 : S.data.isSuffixOf A.data = false) :
    jsEndsWith (p ++ S) A = false := by
  have hS : S.data <:+ p.data ++ S.data := List.suffix_append p.data S.data
  simp only [jsEndsWith, String.data_append]
  by_contra h
  rw [Bool.not_eq_false, List.isSuffixOf_iff_suffix] at h
  rcases List.suffix_or_suffix_of_suffix h hS with h3 | h3
  · rw [← List.isSuffixOf_iff_suffix, h1] at h3
    exact Bool.false_ne_true h3
  · rw [← List.isSuffixOf_iff_suffix, h2] at h3
    exact Bool.false_ne_true h3

lemma stripEnd_append (p s : String) : stripEnd (p ++ s) s = p := by
  apply String.ext
  show (p.data ++ s.data).take ((p ++ s).data.length - s.data.length) = p.data
  rw [String.data_append, List.length_append, Nat.add_sub_cancel]
  exact List.take_left p.data s.data

lemma find?_eq_some_of_unique {α : Type} (pred : α → Bool) (l : List α) (a : α)
    (hmem : a ∈ l) (ha : pred a = true)
    (huniq : ∀ b ∈ l, pred b = true → b = a) :
    l.find? pred = some a := by
  induction l with
  | nil => cases hmem
  | cons x xs ih =>
    by_cases hx : pred x = true
    · have hxa : x = a := huniq x (List.mem_cons_self x xs) hx
      simp [List.find?, hxa, ha]
    · have hxne : x ≠ a := fun hcontra => hx (hcontra ▸ ha)
      have hmem' : a ∈ xs := by
        rcases List.mem_cons.mp hmem with h | h
        · exact absurd h.symm hxne
        · exact h
      have hfind : xs.find? pred = some a :=
        ih hmem' (fun b hb hpb => huniq b (List.mem_cons_of_mem x hb) hpb)
      rw [List.find?]
      rw [Bool.not_eq_true] at hx
      rw [hx]
      exact hfind

lemma replaceEndRegex_eq_self (alts : List String) (repl str : String)
    (h : ∀ alt ∈ alts, jsEndsWith str alt = false) :
    replaceEndRegex alts repl str = str := by
  unfold replaceEndRegex
  have : alts.find? (fun alt => jsEndsWith str alt) = none :=
    List.find?_eq_none.mpr (fun alt halt => by simp [h alt halt])
  rw [this]

lemma replaceEndRegex_no_match_append (alts : List String) (repl p S : String)
    (h : ∀ alt ∈ alts,
      alt.data.isSuffixOf S.data = false ∧ S.data.isSuffixOf alt.data = false) :
    replaceEndRegex alts repl (p ++ S) = p ++ S :=
  replaceEndRegex_eq_self alts repl (p ++ S)
    (fun alt halt => jsEndsWith_append_eq_false p S alt (h alt halt).1 (h alt halt).2)

lemma replaceEndRegex_fires_append (alts : List String) (repl p S : String)
    (hmem : S ∈ alts)
    (hexcl : ∀ alt ∈ alts, alt ≠ S →
      alt.data.isSuffixOf S.data = false ∧ S.data.isSuffixOf alt.data = false) :
    replaceEndRegex alts repl (p ++ S) = p ++ repl := by
  unfold replaceEndRegex
  have hfind : alts.find? (fun alt => jsEndsWith (p ++ S) alt) = some S := by
    apply find?_eq_some_of_unique _ _ _ hmem (jsEndsWith_append_self p S)
    intro b hb hpb
    by_contra hne
    rw [jsEndsWith_append_eq_false p S b (hexcl b hb hne).1 (hexcl b hb hne).2] at hpb
    exact Bool.false_ne_true hpb
  rw [hfind]
  show stripEnd (p ++ S) S ++ repl = p ++ repl
  rw [stripEnd_append]

/-- Decidable check: no alternative of `alts` can match at the end of any
string of the form `p ++ S` (no alternative is a suffix of `S`, and `S` is a
suffix of no alternative). -/
def altNoMatch (S : String) (alts : List String) : Bool :=
  alts.all (fun alt => !alt.data.isSuffixOf S.data && !S.data.isSuffixOf alt.data)

/-- Decidable check: on a string of the form `p ++ S`, the regex with
alternatives `alts` matches exactly the suffix `S`. -/
def altFires (S : String) (alts : List String) : Bool :=
  alts.contains S &&
    alts.all (fun alt =>
      alt == S || (!alt.data.isSuffixOf S.data && !S.data.isSuffixOf alt.data))

lemma replaceEndRegex_no_match (alts : List String) (repl p S : String)
    (h : altNoMatch S alts = true) :
    replaceEndRegex alts repl (p ++ S) = p ++ S := by
  apply replaceEndRegex_no_match_append
  intro alt halt
  have hb := List.all_eq_true.mp h alt halt
  rw [Bool.and_eq_true, Bool.not_eq_true', Bool.not_eq_true'] at hb
  exact hb

lemma replaceEndRegex_fires (alts : List String) (repl p S : String)
    (h : altFires S alts = true) :
    replaceEndRegex alts repl (p ++ S) = p ++ repl := by
  rw [altFires, Bool.and_eq_true] at h
  apply replaceEndRegex_fires_append alts repl p S
  · exact List.elem_iff.mp h.1
  · intro alt halt hne
    have hb := List.all_eq_true.mp h.2 alt halt
    rw [Bool.or_eq_true, beq_iff_eq] at hb
    rcases hb with hb | hb
    · exact absurd hb hne
    · rw [Bool.and_eq_true, Bool.not_eq_true', Bool.not_eq_true'] at hb
      exact hb

/-- Decidable check that the whole regex reduce turns `p ++ S` into
`p ++ "/README.md"`: exactly one of the four regexes fires on the suffix `S`,
the ones before it do not match `p ++ S`, and the ones after it do not match
the already-rewritten `p ++ "/README.md"`. -/
def goodSuffix (S : String) : Prop :=
  (altFires S regexCatalogInfo = true ∧ altNoMatch "/README.md" regexCatalogInfoEnc = true
    ∧ altNoMatch "/README.md" regexDevhub = true ∧ altNoMatch "/README.md" regexDevhubEnc = true)
  ∨ (altNoMatch S regexCatalogInfo = true ∧ altFires S regexCatalogInfoEnc = true
    ∧ altNoMatch "/README.md" regexDevhub = true ∧ altNoMatch "/README.md" regexDevhubEnc = true)
  ∨ (altNoMatch S regexCatalogInfo = true ∧ altNoMatch S regexCatalogInfoEnc = true
    ∧ altFires S regexDevhub = true ∧ altNoMatch "/README.md" regexDevhubEnc = true)
  ∨ (altNoMatch S regexCatalogInfo = true ∧ altNoMatch S regexCatalogInfoEnc = true
    ∧ altNoMatch S regexDevhub = true ∧ altFires S regexDevhubEnc = true)

instance (S : String) : Decidable (goodSuffix S) := by
  unfold goodSuffix
  infer_instance

lemma rewriteReadmeUrl_append (p S : String) (h : goodSuffix S) :
    rewriteReadmeUrl (p ++ S) = p ++ "/README.md" := by
  unfold rewriteReadmeUrl COMPONENT_LOCATIONS_REGEX
  simp only [List.foldl_cons, List.foldl_nil]
  rcases h with ⟨h1, h2, h3, h4⟩ | ⟨h1, h2, h3, h4⟩
    | ⟨h1, h2, h3, h4⟩ | ⟨h1, h2, h3, h4⟩
  · rw [replaceEndRegex_fires regexCatalogInfo "/README.md" p S h1,
        replaceEndRegex_no_match regexCatalogInfoEnc "/README.md" p "/README.md" h2,
        replaceEndRegex_no_match regexDevhub "/README.md" p "/README.md" h3,
        replaceEndRegex_no_match regexDevhubEnc "/README.md" p "/README.md" h4]
  · rw [replaceEndRegex_no_match regexCatalogInfo "/README.md" p S h1,
        replaceEndRegex_fires regexCatalogInfoEnc "/README.md" p S h2,
        replaceEndRegex_no_match regexDevhub "/README.md" p "/README.md" h3,
        replaceEndRegex_no_match regexDevhubEnc "/README.md" p "/README.md" h4]
  · rw [replaceEndRegex_no_match regexCatalogInfo "/README.md" p S h1,
        replaceEndRegex_no_match regexCatalogInfoEnc "/README.md" p S h2,
        replaceEndRegex_fires regexDevhub "/README.md" p S h3,
        replaceEndRegex_no_match regexDevhubEnc "/README.md" p "/README.md" h4]
  · rw [replaceEndRegex_no_match regexCatalogInfo "/README.md" p S h1,
        replaceEndRegex_no_match regexCatalogInfoEnc "/README.md" p S h2,
        replaceEndRegex_no_match regexDevhub "/README.md" p S h3,
        replaceEndRegex_fires regexDevhubEnc "/README.md" p S h4]

/-- If no alternative of any of the four regexes matches the end of `t`, the
reduce leaves `t` unchanged. -/
lemma rewriteReadmeUrl_unchanged (t : String)
    (h : ∀ alts ∈ COMPONENT_LOCATIONS_REGEX, ∀ alt ∈ alts, jsEndsWith t alt = false) :
    rewriteReadmeUrl t = t := by
  unfold rewriteReadmeUrl COMPONENT_LOCATIONS_REGEX
  simp only [List.foldl_cons, List.foldl_nil]
  have hmem : ∀ alts ∈ COMPONENT_LOCATIONS_REGEX,
      replaceEndRegex alts "/README.md" t = t := fun alts halts =>
    replaceEndRegex_eq_self alts "/README.md" t (h alts halts)
  rw [hmem regexCatalogInfo (by simp [COMPONENT_LOCATIONS_REGEX]),
      hmem regexCatalogInfoEnc (by simp [COMPONENT_LOCATIONS_REGEX]),
      hmem regexDevhub (by simp [COMPONENT_LOCATIONS_REGEX]),
      hmem regexDevhubEnc (by simp [COMPONENT_LOCATIONS_REGEX])]

/-- When the annotation is present, non-empty, and parses, `checkReadmeFile`
calls `reader.search` exactly once, with the rewritten target. -/
lemma checkReadmeFile_trace (loc : String) (ref : LocationRef)
    (parseLocationRef : String → Except String LocationRef)
    (search : String → Except String SearchResponse)
    (h0 : loc ≠ "") (h1 : parseLocationRef loc = Except.ok ref) :
    (checkReadmeFile (some loc) parseLocationRef search).2 =
      [rewriteReadmeUrl ref.target] := by
  rcases hs : search (rewriteReadmeUrl ref.target) with e | resp <;>
    simp [checkReadmeFile, if_neg h0, h1, hs]

/-! ### Claim theorems -/

/-- C1 (code bug): the fact retriever's own schema declares `hasDefinition`
as `boolean`, and the claim says the fact is `false` for an absent or empty
`spec.definition`; but the JS `&&` expression evaluates to `undefined` when
the definition is absent and to the empty string when it is empty — falsy
values, not the boolean `false`.  For a present non-empty definition it is
the boolean `true`, as claimed. -/
theorem hasDefinition_value_on_absent_or_empty :
    jsHasDefinition (some "openapi: 3.0.0") = JsVal.bool true ∧
    jsHasDefinition none = JsVal.undef ∧
    jsHasDefinition (some "") = JsVal.str "" ∧
    jsHasDefinition none ≠ JsVal.bool false ∧
    jsHasDefinition (some "") ≠ JsVal.bool false := by decide

/-- C2: when the README probe reaches the search call (annotation present
and non-empty, the location reference parses) and the search resolves,
`checkReadmeFile` returns `true` iff the returned file list has exactly
length 1; zero or several files give `false`. -/
theorem checkReadmeFile_true_iff_single_file
    (loc : String) (ref : LocationRef) (resp : SearchResponse)
    (parseLocationRef : String → Except String LocationRef)
    (search : String → Except String SearchResponse)
    (h0 : loc ≠ "") (h1 : parseLocationRef loc = Except.ok ref)
    (h2 : search (rewriteReadmeUrl ref.target) = Except.ok resp) :
    ((checkReadmeFile (some loc) parseLocationRef search).1 = true ↔
      resp.files.length = 1) := by
  simp [checkReadmeFile, if_neg h0, h1, h2]

theorem checkReadmeFile_true_iff_single_file_witness :
    (checkReadmeFile (some "url:https://g/r/catalog-info.yaml")
      (fun _ => Except.ok ⟨"url", "https://g/r/catalog-info.yaml"⟩)
      (fun _ => Except.ok ⟨["README.md"]⟩)).1 = true :=
  (checkReadmeFile_true_iff_single_file "url:https://g/r/catalog-info.yaml"
    ⟨"url", "https://g/r/catalog-info.yaml"⟩ ⟨["README.md"]⟩
    (fun _ => Except.ok ⟨"url", "https://g/r/catalog-info.yaml"⟩)
    (fun _ => Except.ok ⟨["README.md"]⟩)
    (by decide) rfl rfl).mpr rfl

/-- C3: any failure of the location parse or of the search is caught by
`checkReadmeFile`, which then returns `false`; and since every per-entity
computation is total, the handler's fan-out still yields one record per
entity of the batch, whatever the probe collaborators do. -/
theorem checkReadmeFile_error_swallowed
    (loc : String)
    (parseLocationRef : String → Except String LocationRef)
    (search : String → Except String SearchResponse)
    (h : (∃ e, parseLocationRef loc = Except.error e) ∨
         (∃ ref e, parseLocationRef loc = Except.ok ref ∧
            search (rewriteReadmeUrl ref.target) = Except.error e)) :
    (checkReadmeFile (some loc) parseLocationRef search).1 = false ∧
    ∀ entities : List Entity,
      (handlerFacts entities parseLocationRef search).length = entities.length := by
  constructor
  · by_cases h0 : loc = ""
    · simp [checkReadmeFile, h0]
    · rcases h with ⟨e, he⟩ | ⟨ref, e, href, hse⟩
      · simp [checkReadmeFile, if_neg h0, he]
      · simp [checkReadmeFile, if_neg h0, href, hse]
  · intro entities
    exact List.length_map entities _

theorem checkReadmeFile_error_swallowed_witness :
    (checkReadmeFile (some "url:https://g/r/catalog-info.yaml")
      (fun _ => Except.error "parse failure")
      (fun _ => Except.error "network failure")).1 = false :=
  (checkReadmeFile_error_swallowed "url:https://g/r/catalog-info.yaml"
    (fun _ => Except.error "parse failure")
    (fun _ => Except.error "network failure")
    (Or.inl ⟨"parse failure", rfl⟩)).1

/-- C4 counterexample: the module does not export two fact-retriever
descriptors; its `export const` declarations contain exactly one
(`apiDefinitionFactRetriever`). -/
theorem module_does_not_export_two_fact_retrievers :
    ¬ (moduleExports.countP isFactRetrieverExport = 2) := by decide

/-- C4 (amended): the module exports one fact-retriever descriptor — with
fixed identifier, version and a schema of two boolean facts — and one list
of two check descriptors. -/
theorem module_exports_one_fact_retriever_and_one_check_list :
    moduleExports.countP isFactRetrieverExport = 1 ∧
    moduleExports.countP isCheckListExport = 1 ∧
    moduleExports.length = 2 ∧
    apiDefinitionFactRetriever.id = "apiDefinitionFactRetriever" ∧
    apiDefinitionFactRetriever.version = "0.0.1" ∧
    apiDefinitionFactRetriever.schema.map Prod.fst = ["hasDefinition", "hasReadme"] ∧
    apiDefinitionFactRetriever.schema.map (fun f => f.2.type) = ["boolean", "boolean"] ∧
    checks.map Check.id = ["groupOwnerCheck", "apiDefinitionCheck"] := by decide

/-- C5: with no source-location annotation, `checkReadmeFile` returns
`false` and performs no search call at all (empty search trace). -/
theorem checkReadmeFile_absent_annotation
    (parseLocationRef : String → Except String LocationRef)
    (search : String → Except String SearchResponse) :
    checkReadmeFile none parseLocationRef search = (false, []) := rfl

/-- C6: for a parsed target ending in `/catalog-info.yaml` or in its
percent-encoded form `%2Fcatalog-info.yaml`, the URL handed to the search
operation is the target with that suffix replaced by `/README.md`. -/
theorem checkReadmeFile_catalog_info_url
    (p loc : String) (ref : LocationRef)
    (parseLocationRef : String → Except String LocationRef)
    (search : String → Except String SearchResponse)
    (h0 : loc ≠ "") (h1 : parseLocationRef loc = Except.ok ref)
    (h2 : ref.target = p ++ "/catalog-info.yaml" ∨
          ref.target = p ++ "%2Fcatalog-info.yaml") :
    (checkReadmeFile (some loc) parseLocationRef search).2 = [p ++ "/README.md"] := by
  rw [checkReadmeFile_trace loc ref parseLocationRef search h0 h1]
  rcases h2 with h2 | h2
  · rw [h2, rewriteReadmeUrl_append p "/catalog-info.yaml" (by decide)]
  · rw [h2, rewriteReadmeUrl_append p "%2Fcatalog-info.yaml" (by decide)]

theorem checkReadmeFile_catalog_info_url_witness :
    (checkReadmeFile (some "url:https://g/r/catalog-info.yaml")
      (fun _ => Except.ok ⟨"url", "https://g/r/catalog-info.yaml"⟩)
      (fun _ => Except.ok ⟨["README.md"]⟩)).2 = ["https://g/r" ++ "/README.md"] :=
  checkReadmeFile_catalog_info_url "https://g/r" "url:https://g/r/catalog-info.yaml"
    ⟨"url", "https://g/r/catalog-info.yaml"⟩
    (fun _ => Except.ok ⟨"url", "https://g/r/catalog-info.yaml"⟩)
    (fun _ => Except.ok ⟨["README.md"]⟩)
    (by decide) rfl (Or.inl (by decide))

/-- C7: for a parsed target ending in `/.devhub/<env>/components.yaml` with
`<env>` one of `dev`, `int`, `prod`, plain or percent-encoded, the URL
handed to the search operation is the target with that entire suffix
replaced by `/README.md`. -/
theorem checkReadmeFile_devhub_components_url
    (p env loc : String) (ref : LocationRef)
    (parseLocationRef : String → Except String LocationRef)
    (search : String → Except String SearchResponse)
    (henv : env = "dev" ∨ env = "int" ∨ env = "prod")
    (h0 : loc ≠ "") (h1 : parseLocationRef loc = Except.ok ref)
    (h2 : ref.target = p ++ ("/.devhub/" ++ (env ++ "/components.yaml")) ∨
          ref.target = p ++ ("%2F.devhub%2F" ++ (env ++ "%2Fcomponents.yaml"))) :
    (checkReadmeFile (some loc) parseLocationRef search).2 = [p ++ "/README.md"] := by
  rw [checkReadmeFile_trace loc ref parseLocationRef search h0 h1]
  rcases henv with rfl | rfl | rfl <;> rcases h2 with h2 | h2
  · rw [h2, rewriteReadmeUrl_append p ("/.devhub/" ++ ("dev" ++ "/components.yaml")) (by decide)]
  · rw [h2, rewriteReadmeUrl_append p ("%2F.devhub%2F" ++ ("dev" ++ "%2Fcomponents.yaml")) (by decide)]
  · rw [h2, rewriteReadmeUrl_append p ("/.devhub/" ++ ("int" ++ "/components.yaml")) (by decide)]
  · rw [h2, rewriteReadmeUrl_append p ("%2F.devhub%2F" ++ ("int" ++ "%2Fcomponents.yaml")) (by decide)]
  · rw [h2, rewriteReadmeUrl_append p ("/.devhub/" ++ ("prod" ++ "/components.yaml")) (by decide)]
  · rw [h2, rewriteReadmeUrl_append p ("%2F.devhub%2F" ++ ("prod" ++ "%2Fcomponents.yaml")) (by decide)]

theorem checkReadmeFile_devhub_components_url_witness :
    (checkReadmeFile (some "url:https://g/r/.devhub/int/components.yaml")
      (fun _ => Except.ok ⟨"url", "https://g/r/.devhub/int/components.yaml"⟩)
      (fun _ => Except.ok ⟨["README.md"]⟩)).2 = ["https://g/r" ++ "/README.md"] :=
  checkReadmeFile_devhub_components_url "https://g/r" "int"
    "url:https://g/r/.devhub/int/components.yaml"
    ⟨"url", "https://g/r/.devhub/int/components.yaml"⟩
    (fun _ => Except.ok ⟨"url", "https://g/r/.devhub/int/components.yaml"⟩)
    (fun _ => Except.ok ⟨["README.md"]⟩)
    (Or.inr (Or.inl rfl)) (by decide) rfl (Or.inl (by decide))

/-- C8: the handler's fan-out is an order-preserving map — the record list
has the length of the entity list, and the record at each index is the one
computed from the entity at that index. -/
theorem handlerFacts_preserves_order
    (entities : List Entity)
    (parseLocationRef : String → Except String LocationRef)
    (search : String → Except String SearchResponse) :
    (handlerFacts entities parseLocationRef search).length = entities.length ∧
    ∀ i : Nat, (handlerFacts entities parseLocationRef search)[i]? =
      (entities[i]?).map (factFor parseLocationRef search) := by
  refine ⟨List.length_map entities _, fun i => ?_⟩
  simp [handlerFacts]

/-- C9: the handler propagates exactly the failures of the credential,
token and catalog-listing calls, and when one of them fails the handler's
result is that error, carrying no fact records. -/
theorem handler_error_iff
    (getOwn : Except String ServiceCredentials)
    (getTok : ServiceCredentials → Except String String)
    (getEnts : String → Except String (List Entity))
    (parseLocationRef : String → Except String LocationRef)
    (search : String → Except String SearchResponse)
    (err : String) :
    (handler getOwn getTok getEnts parseLocationRef search = Except.error err ↔
      (getOwn = Except.error err ∨
       (∃ c, getOwn = Except.ok c ∧ getTok c = Except.error err) ∨
       (∃ c tok, getOwn = Except.ok c ∧ getTok c = Except.ok tok ∧
          getEnts tok = Except.error err))) := by
  cases hg : getOwn with
  | error e => simp [handler, hg, Bind.bind, Except.bind]
  | ok c =>
    cases ht : getTok c with
    | error e => simp [handler, hg, ht, Bind.bind, Except.bind]
    | ok tok =>
      cases he : getEnts tok with
      | error e =>
        simp [handler, hg, ht, he, Bind.bind, Except.bind, Functor.map, Except.map]
      | ok ents =>
        simp [handler, hg, ht, he, Bind.bind, Except.bind, Functor.map, Except.map,
          Pure.pure, Except.pure]

/-- C10: when the annotation is present, non-empty and parses, but the
parsed target matches none of the four suffix patterns, the search is still
invoked, with the unmodified target as URL. -/
theorem checkReadmeFile_unmatched_target
    (loc : String) (ref : LocationRef)
    (parseLocationRef : String → Except String LocationRef)
    (search : String → Except String SearchResponse)
    (h0 : loc ≠ "") (h1 : parseLocationRef loc = Except.ok ref)
    (h2 : ∀ alts ∈ COMPONENT_LOCATIONS_REGEX, ∀ alt ∈ alts,
      jsEndsWith ref.target alt = false) :
    (checkReadmeFile (some loc) parseLocationRef search).2 = [ref.target] := by
  rw [checkReadmeFile_trace loc ref parseLocationRef search h0 h1,
      rewriteReadmeUrl_unchanged ref.target h2]

theorem checkReadmeFile_unmatched_target_witness :
    (checkReadmeFile (some "url:https://example.com/tree/main")
      (fun _ => Except.ok ⟨"url", "https://example.com/tree/main"⟩)
      (fun _ => Except.ok ⟨["README.md"]⟩)).2 = ["https://example.com/tree/main"] :=
  checkReadmeFile_unmatched_target "url:https://example.com/tree/main"
    ⟨"url", "https://example.com/tree/main"⟩
    (fun _ => Except.ok ⟨"url", "https://example.com/tree/main"⟩)
    (fun _ => Except.ok ⟨["README.md"]⟩)
    (by decide) rfl (by decide)

end TechInsights
